import Mathlib

/-!
Shallow embedding of the vector-tile geometry decoder, ring classifier,
GeoJSON serializer and mercator coordinate conversions, together with
theorems checking the specification's claims against them.

The binary buffer reader is an external collaborator of the code under
study: a geometry field is therefore modelled at the varint level, as the
list of unsigned varint values the reader would deliver, with the end
offset of the field coinciding with the end of the list.  Truncation
(reading past the end) is the reader's `MalformedBuffer` error.
-/

namespace VectorTile

/-- A 2D tile-local point (the external point-geometry value type). -/
structure Point where
  x : Int
  y : Int
deriving Repr, DecidableEq

/-- Signed zigzag decode, as the external reader's `readSVarint`:
`num % 2 === 1 ? (num + 1) / -2 : num / 2`. -/
def svarint (n : Nat) : Int :=
  if n % 2 = 1 then -(((n : Int) + 1) / 2) else (n : Int) / 2

/-- Decode failures. `unknownCommand` is the explicit `throw` in
`loadGeometry`/`bbox`; `malformedBuffer` models the external reader
failing on a truncated stream; `typeError` models a JavaScript runtime
TypeError from dereferencing an undefined value (e.g. `line.push` when
`line` was never created). -/
inductive DecodeError where
  | unknownCommand (cmd : Nat)
  | malformedBuffer
  | typeError
deriving Repr, DecidableEq

/-- The local state of the `loadGeometry` decode loop: remaining varints
`rest`, current command `cmd`, remaining repeat count `len` (an `Int`:
the JS code decrements before dispatch, so it can reach `-1`), running
accumulator `(x, y)`, the currently open ring `line` (`none` when no
`MoveTo` has run yet), and the rings already closed off `lines`. -/
structure GeomState where
  rest : List Nat
  cmd : Nat
  len : Int
  x : Int
  y : Int
  line : Option (List Point)
  lines : List (List Point)
deriving Repr

/-- One iteration of the decode loop of
`VectorTileFeature.prototype.loadGeometry`, given that the cursor is
still before the end offset (`c` is the varint at the cursor, `rest1`
the ones after it).  Returns the updated loop state, or the error the
iteration raises. -/
def geomStep (c : Nat) (rest1 : List Nat) (cmd : Nat) (len : Int) (x y : Int)
    (line : Option (List Point)) (lines : List (List Point)) :
    Except DecodeError GeomState :=
  if len ≤ 0 then
    -- read a fresh command word: cmd = cmdLen & 0x7, length = cmdLen >> 3,
    -- then length--
    let cmd1 := c % 8
    let len1 : Int := ((c / 8 : Nat) : Int) - 1
    if cmd1 = 1 ∨ cmd1 = 2 then
      match rest1 with
      | dx :: dy :: rest2 =>
        let x1 := x + svarint dx
        let y1 := y + svarint dy
        if cmd1 = 1 then
          .ok ⟨rest2, cmd1, len1, x1, y1, some [⟨x1, y1⟩], lines ++ line.toList⟩
        else if h : line.isSome then
          .ok ⟨rest2, cmd1, len1, x1, y1, some (line.get h ++ [⟨x1, y1⟩]), lines⟩
        else .error .typeError
      | _ => .error .malformedBuffer
    else if cmd1 = 7 then
      if h : line.isSome then
        if h0 : line.get h = [] then .error .typeError
        else .ok ⟨rest1, cmd1, len1, x, y,
          some (line.get h ++ [(line.get h).head h0]), lines⟩
      else .ok ⟨rest1, cmd1, len1, x, y, line, lines⟩
    else .error (.unknownCommand cmd1)
  else
    -- repeat the previous command without reading a command word
    let len1 := len - 1
    if cmd = 1 ∨ cmd = 2 then
      match c :: rest1 with
      | dx :: dy :: rest2 =>
        let x1 := x + svarint dx
        let y1 := y + svarint dy
        if cmd = 1 then
          .ok ⟨rest2, cmd, len1, x1, y1, some [⟨x1, y1⟩], lines ++ line.toList⟩
        else if h : line.isSome then
          .ok ⟨rest2, cmd, len1, x1, y1, some (line.get h ++ [⟨x1, y1⟩]), lines⟩
        else .error .typeError
      | _ => .error .malformedBuffer
    else if cmd = 7 then
      if h : line.isSome then
        if h0 : line.get h = [] then .error .typeError
        else .ok ⟨c :: rest1, cmd, len1, x, y,
          some (line.get h ++ [(line.get h).head h0]), lines⟩
      else .ok ⟨c :: rest1, cmd, len1, x, y, line, lines⟩
    else .error (.unknownCommand cmd)

set_option maxRecDepth 4096 in
/-- A successful iteration strictly decreases the lexicographic measure
(remaining varints, remaining repeat count). -/
theorem geomStep_measure (c : Nat) (rest1 : List Nat) (cmd : Nat) (len : Int)
    (x y : Int) (line : Option (List Point)) (lines : List (List Point))
    (s : GeomState) (h : geomStep c rest1 cmd len x y line lines = .ok s) :
    s.rest.length < rest1.length + 1 ∨
      (s.rest.length = rest1.length + 1 ∧ s.len.toNat < len.toNat) := by
  by_cases hl : len ≤ 0 <;>
    rcases rest1 with _ | ⟨d1, _ | ⟨d2, rest2⟩⟩ <;>
    simp only [geomStep, hl, if_true, if_false, reduceIte, ite_true, ite_false] at h <;>
    split_ifs at h <;>
    (try cases h) <;> simp_all <;> omega

/-- The decode loop of `VectorTileFeature.prototype.loadGeometry`:
while the cursor is before the end offset, run one iteration. -/
def geomLoop (rest : List Nat) (cmd : Nat) (len : Int) (x y : Int)
    (line : Option (List Point)) (lines : List (List Point)) :
    Except DecodeError (List (List Point)) :=
  match rest with
  | [] => .ok (lines ++ line.toList)
  | c :: rest1 =>
    match h : geomStep c rest1 cmd len x y line lines with
    | .error e => .error e
    | .ok s => geomLoop s.rest s.cmd s.len s.x s.y s.line s.lines
termination_by (rest.length, len.toNat)
decreasing_by
  simp_wf
  rcases geomStep_measure c rest1 cmd len x y line lines s h with h1 | ⟨h1, h2⟩
  · exact Prod.Lex.left _ _ (by simpa using h1)
  · have h1' : s.rest.length = (c :: rest1).length := by simpa using h1
    rw [show ((c :: rest1).length = rest1.length + 1) from rfl] at h1'
    rw [h1']
    exact Prod.Lex.right _ h2

/-- Source `VectorTileFeature.prototype.loadGeometry`: decode from the stored
geometry offset with `cmd = 1`, `length = 0`, accumulator `(0, 0)`, no
open ring and no closed rings. -/
def loadGeometry (input : List Nat) : Except DecodeError (List (List Point)) :=
  geomLoop input 1 0 0 0 none []

/-- Unfold one loop iteration of `geomLoop` into `geomStep`. -/
theorem geomLoop_cons (c : Nat) (rest1 : List Nat) (cmd : Nat) (len : Int)
    (x y : Int) (line : Option (List Point)) (lines : List (List Point)) :
    geomLoop (c :: rest1) cmd len x y line lines =
      match geomStep c rest1 cmd len x y line lines with
      | .error e => .error e
      | .ok s => geomLoop s.rest s.cmd s.len s.x s.y s.line s.lines := by
  rw [geomLoop]
  split <;> (rename_i hh; rw [hh])

/-- Source `x1 = Infinity; ...; if (x < x1) x1 = x`: a running minimum where
`none` stands for the initial `Infinity`. -/
def updMin (a : Option Int) (v : Int) : Option Int :=
  match a with
  | none => some v
  | some m => if v < m then some v else some m

/-- Source `x2 = -Infinity; ...; if (x > x2) x2 = x`: a running maximum where
`none` stands for the initial `-Infinity`. -/
def updMax (a : Option Int) (v : Int) : Option Int :=
  match a with
  | none => some v
  | some m => if m < v then some v else some m

/-- The local state of the `bbox` decode loop: cursor, current command,
remaining repeat count, accumulator `(x, y)` and the running extrema
`x1 ≤ x2`, `y1 ≤ y2` (each `none` while still at its infinite initial
value). -/
structure BBoxState where
  rest : List Nat
  cmd : Nat
  len : Int
  x : Int
  y : Int
  x1 : Option Int
  x2 : Option Int
  y1 : Option Int
  y2 : Option Int
deriving Repr

/-- One iteration of the decode loop of
`VectorTileFeature.prototype.bbox`.  Same command interpretation as
`geomStep`, but tracking extrema instead of materializing rings; any
command other than `1`, `2`, `7` is still fatal, and `7` is a no-op. -/
def bboxStep (c : Nat) (rest1 : List Nat) (cmd : Nat) (len : Int) (x y : Int)
    (x1 x2 y1 y2 : Option Int) : Except DecodeError BBoxState :=
  if len ≤ 0 then
    let cmd1 := c % 8
    let len1 : Int := ((c / 8 : Nat) : Int) - 1
    if cmd1 = 1 ∨ cmd1 = 2 then
      match rest1 with
      | dx :: dy :: rest2 =>
        let xn := x + svarint dx
        let yn := y + svarint dy
        .ok ⟨rest2, cmd1, len1, xn, yn,
          updMin x1 xn, updMax x2 xn, updMin y1 yn, updMax y2 yn⟩
      | _ => .error .malformedBuffer
    else if cmd1 = 7 then
      .ok ⟨rest1, cmd1, len1, x, y, x1, x2, y1, y2⟩
    else .error (.unknownCommand cmd1)
  else
    let len1 := len - 1
    if cmd = 1 ∨ cmd = 2 then
      match c :: rest1 with
      | dx :: dy :: rest2 =>
        let xn := x + svarint dx
        let yn := y + svarint dy
        .ok ⟨rest2, cmd, len1, xn, yn,
          updMin x1 xn, updMax x2 xn, updMin y1 yn, updMax y2 yn⟩
      | _ => .error .malformedBuffer
    else if cmd = 7 then
      .ok ⟨c :: rest1, cmd, len1, x, y, x1, x2, y1, y2⟩
    else .error (.unknownCommand cmd)

/-- A successful `bbox` iteration strictly decreases the same measure. -/
theorem bboxStep_measure (c : Nat) (rest1 : List Nat) (cmd : Nat) (len : Int)
    (x y : Int) (x1 x2 y1 y2 : Option Int)
    (s : BBoxState) (h : bboxStep c rest1 cmd len x y x1 x2 y1 y2 = .ok s) :
    s.rest.length < rest1.length + 1 ∨
      (s.rest.length = rest1.length + 1 ∧ s.len.toNat < len.toNat) := by
  by_cases hl : len ≤ 0 <;>
    rcases rest1 with _ | ⟨d1, _ | ⟨d2, rest2⟩⟩ <;>
    simp only [bboxStep, hl, if_true, if_false, reduceIte, ite_true, ite_false] at h <;>
    split_ifs at h <;>
    (try cases h) <;> simp_all <;> omega

/-- The decode loop of `VectorTileFeature.prototype.bbox`. -/
def bboxLoop (rest : List Nat) (cmd : Nat) (len : Int) (x y : Int)
    (x1 x2 y1 y2 : Option Int) :
    Except DecodeError (Option Int × Option Int × Option Int × Option Int) :=
  match rest with
  | [] => .ok (x1, y1, x2, y2)
  | c :: rest1 =>
    match h : bboxStep c rest1 cmd len x y x1 x2 y1 y2 with
    | .error e => .error e
    | .ok s => bboxLoop s.rest s.cmd s.len s.x s.y s.x1 s.x2 s.y1 s.y2
termination_by (rest.length, len.toNat)
decreasing_by
  simp_wf
  rcases bboxStep_measure c rest1 cmd len x y x1 x2 y1 y2 s h with h1 | ⟨h1, h2⟩
  · exact Prod.Lex.left _ _ (by simpa using h1)
  · have h1' : s.rest.length = (c :: rest1).length := by simpa using h1
    rw [show ((c :: rest1).length = rest1.length + 1) from rfl] at h1'
    rw [h1']
    exact Prod.Lex.right _ h2

/-- Source `VectorTileFeature.prototype.bbox`: returns `[x1, y1, x2, y2]`. -/
def bbox (input : List Nat) :
    Except DecodeError (Option Int × Option Int × Option Int × Option Int) :=
  bboxLoop input 1 0 0 0 none none none none

/-- Unfold one loop iteration of `bboxLoop` into `bboxStep`. -/
theorem bboxLoop_cons (c : Nat) (rest1 : List Nat) (cmd : Nat) (len : Int)
    (x y : Int) (x1 x2 y1 y2 : Option Int) :
    bboxLoop (c :: rest1) cmd len x y x1 x2 y1 y2 =
      match bboxStep c rest1 cmd len x y x1 x2 y1 y2 with
      | .error e => .error e
      | .ok s => bboxLoop s.rest s.cmd s.len s.x s.y s.x1 s.x2 s.y1 s.y2 := by
  rw [bboxLoop]
  split <;> (rename_i hh; rw [hh])

/-- Source `signedArea(ring)`: the shoelace sum
`Σ (p2.x - p1.x) * (p1.y + p2.y)` where `p1 = ring[i]` and
`p2 = ring[j]`, `j` running one step behind `i` with wraparound
(`j = len - 1` when `i = 0`). -/
def signedArea (ring : List Point) : Int :=
  (List.range ring.length).foldl (fun sum i =>
    let p1 := ring.getD i ⟨0, 0⟩
    let p2 := ring.getD ((i + ring.length - 1) % ring.length) ⟨0, 0⟩
    sum + (p2.x - p1.x) * (p1.y + p2.y)) 0

/-- The loop of `classifyRings`: `ccw` is the reference winding (`none`
while still `undefined`), `polygon` the currently open polygon (`none`
while still `undefined`), `polygons` the finished groups.  The
`else`-branch `polygon.push(rings[i])` with `polygon` undefined would be
a JavaScript TypeError, modelled as `.error .typeError`. -/
def classifyLoop : List (List Point) → Option Bool →
    Option (List (List Point)) → List (List (List Point)) →
    Except DecodeError (List (List (List Point)))
  | [], _, polygon, polygons => .ok (polygons ++ polygon.toList)
  | r :: rest, ccw, polygon, polygons =>
    let area := signedArea r
    if area = 0 then classifyLoop rest ccw polygon polygons
    else
      let ccw1 := match ccw with
        | none => decide (area < 0)
        | some b => b
      if ccw1 = decide (area < 0) then
        classifyLoop rest (some ccw1) (some [r]) (polygons ++ polygon.toList)
      else
        match polygon with
        | some p => classifyLoop rest (some ccw1) (some (p ++ [r])) polygons
        | none => .error .typeError

/-- Source `classifyRings(rings)`: inputs with at most one ring bypass
classification; otherwise run the winding-order grouping loop. -/
def classifyRings (rings : List (List Point)) :
    Except DecodeError (List (List (List Point))) :=
  if rings.length ≤ 1 then .ok [rings]
  else classifyLoop rings none none []

end VectorTile

namespace Mercator

open Real

/-- Modelled from the spec: `earthRadius`, the mean Earth radius in
meters, is imported by `mercator_coordinate.js` from `geo/lng_lat.js`,
which is not part of the sources under study; the spec gives its value
as 6,371,008.8 m. -/
noncomputable def earthRadius : ℝ := 6371008.8

/-- Source `const earthCircumfrence = 2 * Math.PI * earthRadius` (sic). -/
noncomputable def earthCircumfrence : ℝ := 2 * π * earthRadius

/-- Source `circumferenceAtLatitude(latitude)`. -/
noncomputable def circumferenceAtLatitude (latitude : ℝ) : ℝ :=
  earthCircumfrence * Real.cos (latitude * π / 180)

/-- The rectangular geographic bounds value type (external collaborator);
`getWest()` etc. are the four fields. -/
structure LngLatBounds where
  west : ℝ
  south : ℝ
  east : ℝ
  north : ℝ

/-- Source `mercatorXfromLng(lng, bounds?)`. -/
noncomputable def mercatorXfromLng (lng : ℝ) (bounds : Option LngLatBounds) : ℝ :=
  match bounds with
  | some b => (lng - b.west) / (b.east - b.west)
  | none => (180 + lng) / 360

/-- Source `mercatorYfromLat(lat, bounds?)`. -/
noncomputable def mercatorYfromLat (lat : ℝ) (bounds : Option LngLatBounds) : ℝ :=
  match bounds with
  | some b => (b.north - lat) / (b.north - b.south)
  | none => (180 - (180 / π * Real.log (Real.tan (π / 4 + lat * π / 360)))) / 360

/-- Source `mercatorZfromAltitude(altitude, lat, bounds?)`. -/
noncomputable def mercatorZfromAltitude (altitude lat : ℝ)
    (bounds : Option LngLatBounds) : ℝ :=
  match bounds with
  | some b => altitude / (b.north - lat)
  | none => altitude / circumferenceAtLatitude lat

/-- Source `lngFromMercatorX(x, bounds?)`. -/
noncomputable def lngFromMercatorX (x : ℝ) (bounds : Option LngLatBounds) : ℝ :=
  match bounds with
  | some b => x * (b.east - b.west) + b.west
  | none => x * 360 - 180

/-- Source `latFromMercatorY(y, bounds?)`. -/
noncomputable def latFromMercatorY (y : ℝ) (bounds : Option LngLatBounds) : ℝ :=
  match bounds with
  | some b => b.north - y * (b.north - b.south)
  | none =>
    let y2 := 180 - y * 360
    360 / π * Real.arctan (Real.exp (y2 * π / 180)) - 90

/-- Source `altitudeFromMercatorZ(z, y, bounds?)`. -/
noncomputable def altitudeFromMercatorZ (z y : ℝ)
    (bounds : Option LngLatBounds) : ℝ :=
  match bounds with
  | some b => z * (b.north - y)
  | none => z * circumferenceAtLatitude (latFromMercatorY y none)

/-- Source `mercatorScale(lat)`. -/
noncomputable def mercatorScale (lat : ℝ) : ℝ :=
  1 / Real.cos (lat * π / 180)

/-- Source `MercatorCoordinate.toAltitude(bounds?)` applied to the coordinate
produced by `MercatorCoordinate.fromLngLat`: the roundtrip the spec's
inverse contract describes.  `fromLngLat` stores
`z = mercatorZfromAltitude(altitude, lat, bounds)` and
`y = mercatorYfromLat(lat, bounds)`; `toAltitude` then computes
`altitudeFromMercatorZ(this.z, this.y, bounds)`. -/
noncomputable def altitudeRoundtrip (altitude lat : ℝ)
    (bounds : Option LngLatBounds) : ℝ :=
  altitudeFromMercatorZ (mercatorZfromAltitude altitude lat bounds)
    (mercatorYfromLat lat bounds) bounds

end Mercator

namespace VectorTile

open Mercator

/-- The body of `mercatorProject` in `toGeoJSON`, for one point:
`y2 = 180 - ((p.y + y0) * 360) / size;`
`[((p.x + x0) * 360) / size - 180,`
` (360 / Math.PI) * Math.atan(Math.exp((y2 * Math.PI) / 180)) - 90]`. -/
noncomputable def mercatorProjectPoint (x0 y0 size : ℝ) (p : Point) : ℝ × ℝ :=
  let y2 := 180 - ((p.y : ℝ) + y0) * 360 / size
  (((p.x : ℝ) + x0) * 360 / size - 180,
   360 / Real.pi * Real.arctan (Real.exp (y2 * Real.pi / 180)) - 90)

/-- The body of `gaussProject` in `toGeoJSON`, for one point:
`[((p.x + x0) / size) * width + bounds.getWest(),`
` bounds.getNorth() - ((p.y + y0) / size) * height]`. -/
noncomputable def gaussProjectPoint (b : LngLatBounds) (x0 y0 size : ℝ)
    (p : Point) : ℝ × ℝ :=
  let width := b.east - b.west
  let height := b.north - b.south
  (((p.x : ℝ) + x0) / size * width + b.west,
   b.north - ((p.y : ℝ) + y0) / size * height)

/-- GeoJSON coordinate structures: a projected `[lng, lat]` position, a
raw unprojected tile point (the untouched coordinates of an `Unknown`
typed feature), or a nested array. -/
inductive Coords where
  | pos (c : ℝ × ℝ)
  | pt (p : Point)
  | arr (l : List Coords)

/-- The geometry part of the feature record `toGeoJSON` returns:
`{type, coordinates}`. -/
structure GeoJSONGeometry where
  type : String
  coordinates : Coords

/-- Source `VectorTileFeature.types`. -/
def featureTypes : List String := ["Unknown", "Point", "LineString", "Polygon"]

/-- The tail of `toGeoJSON`: unwrap a single component
(`if (coords.length === 1) coords = coords[0]`), otherwise prefix the
type with `Multi`. -/
def assemble (typeStr : String) (comps : List Coords) : GeoJSONGeometry :=
  match comps with
  | [c] => ⟨typeStr, c⟩
  | _ => ⟨"Multi" ++ typeStr, .arr comps⟩

/-- Source `const project = bounds ? gaussProject.bind(null, bounds) :
mercatorProject`, for one point. -/
noncomputable def projectPoint (bounds : Option LngLatBounds)
    (x0 y0 size : ℝ) (p : Point) : ℝ × ℝ :=
  match bounds with
  | some b => gaussProjectPoint b x0 y0 size p
  | none => mercatorProjectPoint x0 y0 size p

/-- Source `VectorTileFeature.prototype.toGeoJSON(x, y, z, bounds)`, restricted
to the geometry object it assembles (the enclosing `Feature` record just
attaches `properties` verbatim and the optional `id`, which no claim
touches).  `tx`, `ty` are the tile coordinates, `z` the zoom. -/
noncomputable def toGeoJSON (extent : ℝ) (ftype : Nat) (input : List Nat)
    (tx ty : ℝ) (z : ℕ) (bounds : Option LngLatBounds) :
    Except DecodeError GeoJSONGeometry :=
  let size := extent * 2 ^ z
  let x0 := extent * tx
  let y0 := extent * ty
  let project : Point → ℝ × ℝ := projectPoint bounds x0 y0 size
  match loadGeometry input with
  | .error e => .error e
  | .ok coords0 =>
    let typeStr := featureTypes.getD ftype "undefined"
    match ftype with
    | 1 =>
      -- points[i] = coords[i][0], then project the flat point list
      if coords0.any (·.isEmpty) then .error .typeError
      else
        .ok (assemble typeStr
          (coords0.map (fun l => Coords.pos (project (l.headD ⟨0, 0⟩)))))
    | 2 =>
      .ok (assemble typeStr
        (coords0.map (fun l => Coords.arr (l.map (fun p => Coords.pos (project p))))))
    | 3 =>
      match classifyRings coords0 with
      | .error e => .error e
      | .ok polys =>
        .ok (assemble typeStr
          (polys.map (fun poly =>
            Coords.arr (poly.map (fun ring =>
              Coords.arr (ring.map (fun p => Coords.pos (project p))))))))
    | _ =>
      -- no switch case fires: coords keeps the raw decoded points
      .ok (assemble typeStr (coords0.map (fun l => Coords.arr (l.map Coords.pt))))

end VectorTile
namespace VectorTile

/-- C1: decoding MoveTo(0,0) LineTo(2,0) LineTo(2,2) ClosePath yields one
ring [(0,0),(2,0),(2,2),(0,0)], and bbox of the same bytes yields
[0,0,2,2]. -/
theorem decode_square_ring_and_bbox :
    loadGeometry [9, 0, 0, 18, 4, 0, 0, 4, 15] =
      .ok [[⟨0, 0⟩, ⟨2, 0⟩, ⟨2, 2⟩, ⟨0, 0⟩]] ∧
    bbox [9, 0, 0, 18, 4, 0, 0, 4, 15] =
      .ok (some 0, some 0, some 2, some 2) := by
  constructor <;>
    simp [loadGeometry, bbox, geomLoop, bboxLoop, geomStep, bboxStep,
      svarint, updMin, updMax]

/-- C2: whenever the decode loop reads a command word whose code is
outside 1, 2, 7, both `loadGeometry` and `bbox` abort with
`unknownCommand` and return none of the already-accumulated geometry. -/
theorem unknown_command_aborts (c : Nat) (rest1 : List Nat) (cmd : Nat) (len : Int)
    (x y : Int) (line : Option (List Point)) (lines : List (List Point))
    (x1 x2 y1 y2 : Option Int)
    (hlen : len ≤ 0) (h1 : c % 8 ≠ 1) (h2 : c % 8 ≠ 2) (h7 : c % 8 ≠ 7) :
    geomLoop (c :: rest1) cmd len x y line lines = .error (.unknownCommand (c % 8)) ∧
    bboxLoop (c :: rest1) cmd len x y x1 x2 y1 y2 = .error (.unknownCommand (c % 8)) := by
  constructor
  · rw [geomLoop_cons]
    have hs : geomStep c rest1 cmd len x y line lines =
        .error (.unknownCommand (c % 8)) := by
      simp [geomStep, hlen, h1, h2, h7]
    rw [hs]
  · rw [bboxLoop_cons]
    have hs : bboxStep c rest1 cmd len x y x1 x2 y1 y2 =
        .error (.unknownCommand (c % 8)) := by
      simp [bboxStep, hlen, h1, h2, h7]
    rw [hs]

theorem unknown_command_aborts_witness :
    ((0:Int) ≤ 0 ∧ 3 % 8 ≠ 1 ∧ 3 % 8 ≠ 2 ∧ 3 % 8 ≠ 7) ∧
    loadGeometry [3] = .error (.unknownCommand 3) ∧
    bbox [3] = .error (.unknownCommand 3) := by
  have h := unknown_command_aborts 3 [] 1 0 0 0 none [] none none none none
    (by norm_num) (by norm_num) (by norm_num) (by norm_num)
  exact ⟨⟨by norm_num, by norm_num, by norm_num, by norm_num⟩,
    by simpa [loadGeometry] using h.1, by simpa [bbox] using h.2⟩

/-- C3: both decode modes start one running accumulator at `(0, 0)` and
add every MoveTo/LineTo signed delta to it; a MoveTo does not reset the
accumulator, it only closes off the open ring (if any) and starts a new
ring whose first stored point is the updated `(x, y)`. -/
theorem cumulative_accumulator :
    (∀ input, loadGeometry input = geomLoop input 1 0 0 0 none [] ∧
      bbox input = bboxLoop input 1 0 0 0 none none none none) ∧
    (∀ c dx dy rest1 cmd len x y line lines, len ≤ 0 → c % 8 = 1 →
      geomLoop (c :: dx :: dy :: rest1) cmd len x y line lines =
        geomLoop rest1 1 (((c / 8 : Nat) : Int) - 1)
          (x + svarint dx) (y + svarint dy)
          (some [⟨x + svarint dx, y + svarint dy⟩]) (lines ++ line.toList)) ∧
    (∀ c dx dy rest1 cmd len x y l lines, len ≤ 0 → c % 8 = 2 →
      geomLoop (c :: dx :: dy :: rest1) cmd len x y (some l) lines =
        geomLoop rest1 2 (((c / 8 : Nat) : Int) - 1)
          (x + svarint dx) (y + svarint dy)
          (some (l ++ [⟨x + svarint dx, y + svarint dy⟩])) lines) ∧
    (∀ dx dy rest1 len x y line lines, 0 < len →
      geomLoop (dx :: dy :: rest1) 1 len x y line lines =
        geomLoop rest1 1 (len - 1)
          (x + svarint dx) (y + svarint dy)
          (some [⟨x + svarint dx, y + svarint dy⟩]) (lines ++ line.toList)) ∧
    (∀ dx dy rest1 len x y l lines, 0 < len →
      geomLoop (dx :: dy :: rest1) 2 len x y (some l) lines =
        geomLoop rest1 2 (len - 1)
          (x + svarint dx) (y + svarint dy)
          (some (l ++ [⟨x + svarint dx, y + svarint dy⟩])) lines) ∧
    (∀ c dx dy rest1 cmd len x y x1 x2 y1 y2, len ≤ 0 → c % 8 = 1 ∨ c % 8 = 2 →
      len ≤ 0 →
      bboxLoop (c :: dx :: dy :: rest1) cmd len x y x1 x2 y1 y2 =
        bboxLoop rest1 (c % 8) (((c / 8 : Nat) : Int) - 1)
          (x + svarint dx) (y + svarint dy)
          (updMin x1 (x + svarint dx)) (updMax x2 (x + svarint dx))
          (updMin y1 (y + svarint dy)) (updMax y2 (y + svarint dy))) ∧
    (∀ cmd dx dy rest1 len x y x1 x2 y1 y2, 0 < len → cmd = 1 ∨ cmd = 2 →
      bboxLoop (dx :: dy :: rest1) cmd len x y x1 x2 y1 y2 =
        bboxLoop rest1 cmd (len - 1)
          (x + svarint dx) (y + svarint dy)
          (updMin x1 (x + svarint dx)) (updMax x2 (x + svarint dx))
          (updMin y1 (y + svarint dy)) (updMax y2 (y + svarint dy))) := by
  refine ⟨fun input => ⟨rfl, rfl⟩, ?_, ?_, ?_, ?_, ?_, ?_⟩
  · intro c dx dy rest1 cmd len x y line lines hlen hc
    rw [geomLoop_cons]
    have hs : geomStep c (dx :: dy :: rest1) cmd len x y line lines =
        .ok ⟨rest1, 1, ((c / 8 : Nat) : Int) - 1, x + svarint dx, y + svarint dy,
          some [⟨x + svarint dx, y + svarint dy⟩], lines ++ line.toList⟩ := by
      simp [geomStep, hlen, hc]
    rw [hs]
  · intro c dx dy rest1 cmd len x y l lines hlen hc
    rw [geomLoop_cons]
    have hs : geomStep c (dx :: dy :: rest1) cmd len x y (some l) lines =
        .ok ⟨rest1, 2, ((c / 8 : Nat) : Int) - 1, x + svarint dx, y + svarint dy,
          some (l ++ [⟨x + svarint dx, y + svarint dy⟩]), lines⟩ := by
      simp [geomStep, hlen, hc]
    rw [hs]
  · intro dx dy rest1 len x y line lines hlen
    rw [geomLoop_cons]
    have hs : geomStep dx (dy :: rest1) 1 len x y line lines =
        .ok ⟨rest1, 1, len - 1, x + svarint dx, y + svarint dy,
          some [⟨x + svarint dx, y + svarint dy⟩], lines ++ line.toList⟩ := by
      simp [geomStep, Int.not_le.mpr hlen]
    rw [hs]
  · intro dx dy rest1 len x y l lines hlen
    rw [geomLoop_cons]
    have hs : geomStep dx (dy :: rest1) 2 len x y (some l) lines =
        .ok ⟨rest1, 2, len - 1, x + svarint dx, y + svarint dy,
          some (l ++ [⟨x + svarint dx, y + svarint dy⟩]), lines⟩ := by
      simp [geomStep, Int.not_le.mpr hlen]
    rw [hs]
  · intro c dx dy rest1 cmd len x y x1 x2 y1 y2 hlen hc _
    rw [bboxLoop_cons]
    have hs : bboxStep c (dx :: dy :: rest1) cmd len x y x1 x2 y1 y2 =
        .ok ⟨rest1, c % 8, ((c / 8 : Nat) : Int) - 1, x + svarint dx, y + svarint dy,
          updMin x1 (x + svarint dx), updMax x2 (x + svarint dx),
          updMin y1 (y + svarint dy), updMax y2 (y + svarint dy)⟩ := by
      simp [bboxStep, hlen, hc]
    rw [hs]
  · intro cmd dx dy rest1 len x y x1 x2 y1 y2 hlen hc
    rw [bboxLoop_cons]
    have hs : bboxStep dx (dy :: rest1) cmd len x y x1 x2 y1 y2 =
        .ok ⟨rest1, cmd, len - 1, x + svarint dx, y + svarint dy,
          updMin x1 (x + svarint dx), updMax x2 (x + svarint dx),
          updMin y1 (y + svarint dy), updMax y2 (y + svarint dy)⟩ := by
      simp [bboxStep, Int.not_le.mpr hlen, hc]
    rw [hs]

theorem cumulative_accumulator_witness :
    geomLoop [9, 2, 3] 1 0 10 20 (some [⟨10, 20⟩]) [] =
      geomLoop [] 1 0 11 18 (some [⟨11, 18⟩]) [[⟨10, 20⟩]] := by
  have h := cumulative_accumulator.2.1 9 2 3 [] 1 0 10 20 (some [⟨10, 20⟩]) []
    (by norm_num) (by norm_num)
  simpa [svarint] using h

/-- C10: a LineTo reached with no ring open (no preceding MoveTo) makes
`loadGeometry` fail with a TypeError, which is distinct from
`unknownCommand`; a ClosePath before any MoveTo is guarded and is a
no-op. -/
theorem lineTo_before_moveTo :
    (∀ c dx dy rest1 cmd len x y lines, len ≤ 0 → c % 8 = 2 →
      geomLoop (c :: dx :: dy :: rest1) cmd len x y none lines = .error .typeError) ∧
    (∀ n, DecodeError.typeError ≠ .unknownCommand n) ∧
    (∀ c rest1 cmd len x y lines, len ≤ 0 → c % 8 = 7 →
      geomLoop (c :: rest1) cmd len x y none lines =
        geomLoop rest1 7 (((c / 8 : Nat) : Int) - 1) x y none lines) ∧
    (∀ c dx dy rest1, c % 8 = 2 →
      loadGeometry (c :: dx :: dy :: rest1) = .error .typeError) := by
  have main : ∀ c dx dy rest1 cmd len x y lines, len ≤ 0 → c % 8 = 2 →
      geomLoop (c :: dx :: dy :: rest1) cmd len x y
        (none : Option (List Point)) lines = .error .typeError := by
    intro c dx dy rest1 cmd len x y lines hlen hc
    rw [geomLoop_cons]
    have hs : geomStep c (dx :: dy :: rest1) cmd len x y none lines =
        .error .typeError := by
      simp [geomStep, hlen, hc]
    rw [hs]
  refine ⟨main, ?_, ?_, ?_⟩
  · intro n h
    cases h
  · intro c rest1 cmd len x y lines hlen hc
    rw [geomLoop_cons]
    have hs : geomStep c rest1 cmd len x y none lines =
        .ok ⟨rest1, 7, ((c / 8 : Nat) : Int) - 1, x, y, none, lines⟩ := by
      simp [geomStep, hlen, hc]
    rw [hs]
  · intro c dx dy rest1 hc
    exact main c dx dy rest1 1 0 0 0 [] (by norm_num) hc

theorem lineTo_before_moveTo_witness :
    loadGeometry [10, 0, 0] = .error .typeError := by
  exact lineTo_before_moveTo.2.2.2 10 0 0 [] (by norm_num)

end VectorTile
namespace VectorTile

/-- The classify loop invariant: once a reference winding is set, a
polygon is open.  Under it the loop always succeeds. -/
theorem classifyLoop_ok (rings : List (List Point)) :
    ∀ (ccw : Option Bool) (polygon : Option (List (List Point)))
      (polygons : List (List (List Point))),
      (ccw.isSome → polygon.isSome) →
      ∃ ps, classifyLoop rings ccw polygon polygons = .ok ps := by
  induction rings with
  | nil => intro ccw polygon polygons _; exact ⟨_, rfl⟩
  | cons r rest ih =>
    intro ccw polygon polygons hinv
    simp only [classifyLoop]
    by_cases h0 : signedArea r = 0
    · simp only [h0, if_true, reduceIte, ite_true]
      exact ih ccw polygon polygons hinv
    · simp only [h0, if_false, reduceIte, ite_false]
      rcases ccw with _ | b
      · simp only []
        exact ih _ _ _ (by simp)
      · simp only []
        by_cases hb : b = decide (signedArea r < 0)
        · simp only [hb, if_true, reduceIte, ite_true]
          exact ih _ _ _ (by simp)
        · simp only [hb, if_false, reduceIte, ite_false]
          have hp : polygon.isSome := hinv (by simp)
          rcases polygon with _ | p
          · simp at hp
          · simp only []
            exact ih _ _ _ (by simp)

/-- C5, counterexample: contrary to the claim, there is no input on
which the hole-append branch executes with no polygon open — the first
non-degenerate ring always sets the reference winding and opens a
polygon in the same iteration, so `classifyRings` never reaches the
undefined-polygon append (never errors). -/
theorem hole_append_never_without_polygon :
    ¬ ∃ (rings : List (List Point)) (e : DecodeError),
        classifyRings rings = .error e := by
  rintro ⟨rings, e, h⟩
  rw [classifyRings] at h
  by_cases hlen : rings.length ≤ 1
  · simp [hlen] at h
  · rcases classifyLoop_ok rings none none [] (by simp) with ⟨ps, hok⟩
    rw [if_neg hlen, hok] at h
    cases h

/-- C5, amended: for every input, `classifyRings` returns a result;
the hole-append branch can only execute while a polygon is open. -/
theorem classifyRings_total (rings : List (List Point)) :
    ∃ ps, classifyRings rings = .ok ps := by
  rw [classifyRings]
  by_cases hlen : rings.length ≤ 1
  · exact ⟨[rings], by rw [if_pos hlen]⟩
  · rcases classifyLoop_ok rings none none [] (by simp) with ⟨ps, hok⟩
    exact ⟨ps, by rw [if_neg hlen, hok]⟩

/-- C4: two non-degenerate rings with opposite signed-area signs
classify as one polygon (exterior then hole); with equal signs they
classify as two single-ring polygons; zero-area rings are skipped; at
most one ring bypasses classification as a single group. -/
theorem two_ring_classification :
    (∀ r1 r2 : List Point, signedArea r1 ≠ 0 → signedArea r2 ≠ 0 →
      (((signedArea r1 < 0) ↔ ¬(signedArea r2 < 0)) →
        classifyRings [r1, r2] = .ok [[r1, r2]]) ∧
      (((signedArea r1 < 0) ↔ (signedArea r2 < 0)) →
        classifyRings [r1, r2] = .ok [[r1], [r2]])) ∧
    (∀ (r : List Point) rings ccw polygon polygons, signedArea r = 0 →
      classifyLoop (r :: rings) ccw polygon polygons =
        classifyLoop rings ccw polygon polygons) ∧
    (∀ rings : List (List Point), rings.length ≤ 1 →
      classifyRings rings = .ok [rings]) := by
  refine ⟨?_, ?_, ?_⟩
  · intro r1 r2 h1 h2
    constructor
    · intro hsign
      have hne : decide (signedArea r1 < 0) ≠ decide (signedArea r2 < 0) := by
        rw [ne_eq, decide_eq_decide]
        intro hiff
        tauto
      simp [classifyRings, classifyLoop, h1, h2, hne]
    · intro hsign
      have heq : decide (signedArea r1 < 0) = decide (signedArea r2 < 0) := by
        rw [decide_eq_decide]
        exact hsign
      simp [classifyRings, classifyLoop, h1, h2, heq]
  · intro r rings ccw polygon polygons h0
    simp only [classifyLoop]
    simp [h0]
  · intro rings hlen
    rw [classifyRings, if_pos hlen]

theorem two_ring_classification_witness :
    signedArea [⟨0, 0⟩, ⟨0, 2⟩, ⟨2, 2⟩, ⟨2, 0⟩] ≠ 0 ∧
    signedArea [⟨0, 0⟩, ⟨1, 0⟩, ⟨1, 1⟩, ⟨0, 1⟩] ≠ 0 ∧
    classifyRings [[⟨0, 0⟩, ⟨0, 2⟩, ⟨2, 2⟩, ⟨2, 0⟩], [⟨0, 0⟩, ⟨1, 0⟩, ⟨1, 1⟩, ⟨0, 1⟩]] =
      .ok [[[⟨0, 0⟩, ⟨0, 2⟩, ⟨2, 2⟩, ⟨2, 0⟩], [⟨0, 0⟩, ⟨1, 0⟩, ⟨1, 1⟩, ⟨0, 1⟩]]] ∧
    classifyRings [[⟨0, 0⟩, ⟨0, 2⟩, ⟨2, 2⟩, ⟨2, 0⟩], [⟨0, 0⟩, ⟨0, 1⟩, ⟨1, 1⟩, ⟨1, 0⟩]] =
      .ok [[[⟨0, 0⟩, ⟨0, 2⟩, ⟨2, 2⟩, ⟨2, 0⟩]], [[⟨0, 0⟩, ⟨0, 1⟩, ⟨1, 1⟩, ⟨1, 0⟩]]] := by
  refine ⟨by decide, by decide, ?_, ?_⟩
  · exact ((two_ring_classification.1 _ _ (by decide) (by decide)).1 (by decide))
  · exact ((two_ring_classification.1 _ _ (by decide) (by decide)).2 (by decide))

end VectorTile
namespace Mercator

open Real

/-- Helper: the default-branch latitude roundtrip is exact on
`(-90, 90)`. -/
theorem latFromMercatorY_mercatorYfromLat (lat : ℝ)
    (h1 : -90 < lat) (h2 : lat < 90) :
    latFromMercatorY (mercatorYfromLat lat none) none = lat := by
  have hπ := Real.pi_pos
  have hπ0 : (π : ℝ) ≠ 0 := ne_of_gt hπ
  set θ : ℝ := π / 4 + lat * π / 360 with hθ
  have hθeq : θ = π * ((90 + lat) / 360) := by rw [hθ]; ring
  have hθpos : 0 < θ := by
    rw [hθeq]
    exact mul_pos hπ (by linarith)
  have hθlt : θ < π / 2 := by
    rw [hθeq]
    calc π * ((90 + lat) / 360) < π * (1 / 2) :=
          mul_lt_mul_of_pos_left (by linarith) hπ
    _ = π / 2 := by ring
  have htanpos : 0 < Real.tan θ :=
    Real.tan_pos_of_pos_of_lt_pi_div_two hθpos hθlt
  simp only [mercatorYfromLat, latFromMercatorY]
  have harg : (180 - (180 - 180 / π * Real.log (Real.tan θ)) / 360 * 360) * π / 180
      = Real.log (Real.tan θ) := by
    field_simp
    ring
  rw [harg, Real.exp_log htanpos,
    Real.arctan_tan (lt_trans (by linarith : -(π / 2) < 0) hθpos) hθlt, hθeq]
  field_simp
  ring

end Mercator

namespace VectorTile

open Mercator

/-- C6: for every decoded tile point, `toGeoJSON`'s inline projection
equals composing the mercator-coordinate inverse projections at
`globalX / size` and `globalY / size`, where
`globalX = tileX * extent + localX` and `size = extent * 2 ^ zoom`,
in both the default and the bounds-relative branch. -/
theorem projection_refines_inverses
    (extent tx ty : ℝ) (z : ℕ) (p : Point) (b : LngLatBounds) :
    projectPoint none (extent * tx) (extent * ty) (extent * 2 ^ z) p =
      (lngFromMercatorX ((tx * extent + (p.x : ℝ)) / (extent * 2 ^ z)) none,
       latFromMercatorY ((ty * extent + (p.y : ℝ)) / (extent * 2 ^ z)) none) ∧
    projectPoint (some b) (extent * tx) (extent * ty) (extent * 2 ^ z) p =
      (lngFromMercatorX ((tx * extent + (p.x : ℝ)) / (extent * 2 ^ z)) (some b),
       latFromMercatorY ((ty * extent + (p.y : ℝ)) / (extent * 2 ^ z)) (some b)) := by
  constructor
  · have harg : 180 - ((p.y : ℝ) + extent * ty) * 360 / (extent * 2 ^ z) =
        180 - (ty * extent + (p.y : ℝ)) / (extent * 2 ^ z) * 360 := by
      ring
    simp only [projectPoint, mercatorProjectPoint, lngFromMercatorX,
      latFromMercatorY, Prod.mk.injEq]
    refine ⟨by ring, ?_⟩
    rw [harg]
  · simp only [projectPoint, gaussProjectPoint, lngFromMercatorX,
      latFromMercatorY, Prod.mk.injEq]
    exact ⟨by ring, by ring⟩

end VectorTile

namespace Mercator

open Real

/-- C8: the forward-then-inverse roundtrip reproduces latitude on
`(-85.06, 85.06)` and longitude on `[-180, 180)` exactly (in the real
model), and likewise in the bounds-relative branch for any point inside
or on the boundary of a nondegenerate bounds rectangle. -/
theorem roundtrip_contract (lat lng : ℝ) (b : LngLatBounds) :
    (-85.06 < lat → lat < 85.06 →
      latFromMercatorY (mercatorYfromLat lat none) none = lat) ∧
    (-180 ≤ lng → lng < 180 →
      lngFromMercatorX (mercatorXfromLng lng none) none = lng) ∧
    (b.west < b.east → b.south < b.north →
      b.west ≤ lng → lng ≤ b.east → b.south ≤ lat → lat ≤ b.north →
      lngFromMercatorX (mercatorXfromLng lng (some b)) (some b) = lng ∧
      latFromMercatorY (mercatorYfromLat lat (some b)) (some b) = lat) := by
  refine ⟨?_, ?_, ?_⟩
  · intro h1 h2
    exact latFromMercatorY_mercatorYfromLat lat (by linarith) (by linarith)
  · intro _ _
    simp only [mercatorXfromLng, lngFromMercatorX]
    ring
  · intro hwe hsn _ _ _ _
    have hew : b.east - b.west ≠ 0 := sub_ne_zero.mpr (ne_of_gt hwe)
    have hns : b.north - b.south ≠ 0 := sub_ne_zero.mpr (ne_of_gt hsn)
    constructor
    · simp only [mercatorXfromLng, lngFromMercatorX]
      field_simp
    · simp only [mercatorYfromLat, latFromMercatorY]
      field_simp

theorem roundtrip_contract_witness :
    latFromMercatorY (mercatorYfromLat 45 none) none = 45 ∧
    lngFromMercatorX (mercatorXfromLng 30 none) none = 30 ∧
    (lngFromMercatorX (mercatorXfromLng (1/2) (some ⟨0, 0, 1, 1⟩)) (some ⟨0, 0, 1, 1⟩) = 1/2 ∧
     latFromMercatorY (mercatorYfromLat (1/2) (some ⟨0, 0, 1, 1⟩)) (some ⟨0, 0, 1, 1⟩) = 1/2) := by
  refine ⟨(roundtrip_contract 45 30 ⟨0, 0, 1, 1⟩).1 (by norm_num) (by norm_num),
    (roundtrip_contract 45 30 ⟨0, 0, 1, 1⟩).2.1 (by norm_num) (by norm_num),
    (roundtrip_contract (1/2) (1/2) ⟨0, 0, 1, 1⟩).2.2 (by norm_num) (by norm_num)
      (by norm_num) (by norm_num) (by norm_num) (by norm_num)⟩

/-- C9, counterexample: the bounds-relative altitude roundtrip of
`mercatorZfromAltitude` followed by `toAltitude`'s
`altitudeFromMercatorZ` does not reproduce the altitude: with bounds
`{west 0, south 0, east 1, north 1}`, altitude `1` at latitude `1/4`
comes back as `1/3`. -/
theorem altitude_roundtrip_bounds_fails :
    altitudeRoundtrip 1 (1 / 4) (some ⟨0, 0, 1, 1⟩) = 1 / 3 ∧
    (1 / 3 : ℝ) ≠ 1 := by
  constructor
  · simp only [altitudeRoundtrip, altitudeFromMercatorZ, mercatorZfromAltitude,
      mercatorYfromLat]
    norm_num
  · norm_num

/-- C9, amended: the default-branch altitude roundtrip is exact for
latitudes in `(-90, 90)`; the bounds-relative branch instead returns
`altitude * (north - yMerc) / (north - lat)` with
`yMerc = (north - lat) / (north - south)` — the code reuses the
mercator-normalized `y` where a latitude is expected, so the roundtrip
fails in general. -/
theorem altitude_roundtrip_amended (altitude lat : ℝ) (b : LngLatBounds) :
    (-90 < lat → lat < 90 → altitudeRoundtrip altitude lat none = altitude) ∧
    altitudeRoundtrip altitude lat (some b) =
      altitude * (b.north - (b.north - lat) / (b.north - b.south)) / (b.north - lat) := by
  constructor
  · intro h1 h2
    have hπ := Real.pi_pos
    simp only [altitudeRoundtrip, altitudeFromMercatorZ, mercatorZfromAltitude,
      latFromMercatorY_mercatorYfromLat lat h1 h2]
    have hcos : 0 < Real.cos (lat * π / 180) := by
      apply Real.cos_pos_of_mem_Ioo
      apply Set.mem_Ioo.mpr
      constructor
      · rw [show -(π / 2) = π * (-(90) / 180) from by ring,
          show lat * π / 180 = π * (lat / 180) from by ring]
        exact mul_lt_mul_of_pos_left (by linarith) hπ
      · rw [show lat * π / 180 = π * (lat / 180) from by ring,
          show π / 2 = π * (90 / 180) from by ring]
        exact mul_lt_mul_of_pos_left (by linarith) hπ
    have hC : circumferenceAtLatitude lat ≠ 0 := by
      simp only [circumferenceAtLatitude, earthCircumfrence, earthRadius]
      exact ne_of_gt (mul_pos (by positivity) hcos)
    exact div_mul_cancel₀ altitude hC
  · simp only [altitudeRoundtrip, altitudeFromMercatorZ, mercatorZfromAltitude,
      mercatorYfromLat]
    ring

theorem altitude_roundtrip_amended_witness :
    altitudeRoundtrip 2 0 none = 2 :=
  (altitude_roundtrip_amended 2 0 ⟨0, 0, 1, 1⟩).1 (by norm_num) (by norm_num)

end Mercator
namespace VectorTile

open Mercator

/-- C7: `toGeoJSON` keeps the singular geometry type exactly when there
is one component and otherwise prefixes it with `Multi`; a Point feature
with one decoded point emits `Point` with a bare coordinate pair, and a
Polygon feature whose rings classify into two groups emits
`MultiPolygon` with exactly two coordinate groups. -/
theorem geojson_type_naming :
    (∀ (t : String) (c : Coords), assemble t [c] = ⟨t, c⟩) ∧
    (∀ (t : String) (comps : List Coords), comps.length ≠ 1 →
      assemble t comps = ⟨"Multi" ++ t, .arr comps⟩) ∧
    (∀ (extent : ℝ) (input : List Nat) (tx ty : ℝ) (z : ℕ)
        (bounds : Option LngLatBounds) (p : Point) (l : List Point),
      loadGeometry input = .ok [p :: l] →
      toGeoJSON extent 1 input tx ty z bounds =
        .ok ⟨"Point", .pos (projectPoint bounds (extent * tx) (extent * ty)
          (extent * 2 ^ z) p)⟩) ∧
    (∀ (extent : ℝ) (input : List Nat) (tx ty : ℝ) (z : ℕ)
        (bounds : Option LngLatBounds) (cs : List (List Point))
        (g1 g2 : List (List Point)),
      loadGeometry input = .ok cs →
      classifyRings cs = .ok [g1, g2] →
      toGeoJSON extent 3 input tx ty z bounds =
        .ok ⟨"MultiPolygon", .arr [
          .arr (g1.map (fun ring => Coords.arr (ring.map (fun q =>
            Coords.pos (projectPoint bounds (extent * tx) (extent * ty)
              (extent * 2 ^ z) q))))),
          .arr (g2.map (fun ring => Coords.arr (ring.map (fun q =>
            Coords.pos (projectPoint bounds (extent * tx) (extent * ty)
              (extent * 2 ^ z) q)))))]⟩) := by
  refine ⟨fun t c => rfl, ?_, ?_, ?_⟩
  · intro t comps hlen
    match comps with
    | [] => rfl
    | [c] => exact absurd rfl hlen
    | c1 :: c2 :: rest => rfl
  · intro extent input tx ty z bounds p l h
    simp [toGeoJSON, h, assemble, featureTypes]
  · intro extent input tx ty z bounds cs g1 g2 h hc
    simp [toGeoJSON, h, hc, assemble, featureTypes]

theorem geojson_type_naming_witness :
    toGeoJSON 4096 1 [9, 0, 0] 0 0 0 none =
      .ok ⟨"Point", .pos (projectPoint none (4096 * 0) (4096 * 0)
        (4096 * 2 ^ 0) ⟨0, 0⟩)⟩ := by
  apply geojson_type_naming.2.2.1 4096 [9, 0, 0] 0 0 0 none ⟨0, 0⟩ []
  simp [loadGeometry, geomLoop, geomStep, svarint]

end VectorTile
